import Mathlib

/-!
# Verification of the ZoBuilder bot backend kernel

Shallow embedding of the repository's two components:

* the **User Ledger** (`database.py`): CRUD and counter mutations over a
  `users` table, with a flat storage schema translated into a nested logical
  view by `_map_user_from_db`;
* the **Identity Gateway** (`auth_service.py`): OTP send/verify wrappers
  around an external passport SDK.

The `users` table of the hosted store is modelled as a `List DBRow` (rows in
insertion order; `insert` appends, `update ... eq(col, v)` rewrites every row
matching the filter, `select ... eq(col, v)` keeps the matching rows in order,
so `response.data[0]` is the first match).  Storage columns that the source
reads with `dict.get(key, default)` are modelled as `Option` fields (absent =
`none`); columns read with mandatory indexing are plain fields.

Python exceptions are modelled with `Except String`; the exception-aware
layer (`FM` monad, `...F` operations) mirrors exactly where the source places
its `try`/`except` blocks, with storage faults injected by a schedule.
-/

/-- Flat storage row of the `users` table, as `database.py` accesses it.
Fields read via `db_row[...]` are mandatory; fields read via
`db_row.get(key, default)` are `Option` (a `none` models an absent column).
`builder_score` is a Python float used only as an opaque stored value; it is
modelled as `Int`. -/
structure DBRow where
  id : Int
  username : Option String
  first_name : String
  github_username : Option String
  wallet_address : Option String
  builder_score : Int
  created_at : String
  nominations_received : Option Nat
  nominations_given : Option (List String)
  telegram_messages : Option Nat
  telegram_replies : Option Nat
  github_commits : Option Nat
  github_prs : Option Nat
  github_issues : Option Nat
deriving DecidableEq

/-- Nested `telegram_activity` sub-object of the logical user view. -/
structure TelegramActivity where
  messages : Nat
  replies : Nat
deriving DecidableEq

/-- Nested `github_contributions` sub-object of the logical user view. -/
structure GithubContributions where
  commits : Nat
  prs : Nat
  issues : Nat
deriving DecidableEq

/-- Nested logical user dictionary returned by `_map_user_from_db`. -/
structure User where
  user_id : Int
  username : Option String
  first_name : String
  github_username : Option String
  wallet_address : Option String
  builder_score : Int
  created_at : String
  nominations_received : Nat
  nominations_given : List String
  telegram_activity : TelegramActivity
  github_contributions : GithubContributions
deriving DecidableEq

/-- The `users` table: rows in insertion order. -/
abbrev DB := List DBRow

/-- `database.py` `_map_user_from_db`: maps a flat storage row to the nested
dictionary expected by the bot.  `.get(key, default)` becomes `Option.getD`. -/
def _map_user_from_db (db_row : DBRow) : User :=
  { user_id := db_row.id
    username := db_row.username
    first_name := db_row.first_name
    github_username := db_row.github_username
    wallet_address := db_row.wallet_address
    builder_score := db_row.builder_score
    created_at := db_row.created_at
    nominations_received := db_row.nominations_received.getD 0
    nominations_given := db_row.nominations_given.getD []
    telegram_activity :=
      { messages := db_row.telegram_messages.getD 0
        replies := db_row.telegram_replies.getD 0 }
    github_contributions :=
      { commits := db_row.github_commits.getD 0
        prs := db_row.github_prs.getD 0
        issues := db_row.github_issues.getD 0 } }

/-- Python `username[1:]` applied after `username.startswith("@")`:
drop a single leading `@` character (and nothing else). -/
def stripAt (s : String) : String :=
  match s.data with
  | '@' :: rest => String.mk rest
  | _ => s

/-- `select("*").eq("id", user_id)` followed by taking `response.data[0]`:
first row whose `id` column equals `user_id`. -/
def findById (db : DB) (user_id : Int) : Option DBRow :=
  db.find? (fun r => r.id == user_id)

/-- First row whose `username` column equals the given (non-null) name. -/
def findByUsername (db : DB) (name : String) : Option DBRow :=
  db.find? (fun r => r.username == some name)

/-- `update({...}).eq("id", user_id)`: rewrite every row whose `id` matches. -/
def updateById (db : DB) (user_id : Int) (f : DBRow → DBRow) : DB :=
  db.map (fun r => if r.id == user_id then f r else r)

/-- `update({...}).eq("github_username", g)`: rewrite every matching row. -/
def updateByGithubUsername (db : DB) (g : String) (f : DBRow → DBRow) : DB :=
  db.map (fun r => if r.github_username == some g then f r else r)

/-- `database.py` `get_user`: point lookup by id, mapped to the nested view. -/
def get_user (db : DB) (user_id : Int) : Option User :=
  (findById db user_id).map _map_user_from_db

/-- `database.py` `get_user_by_username`: strips a leading `@`, then returns
the first row with that `username` (usernames are not unique). -/
def get_user_by_username (db : DB) (username : String) : Option User :=
  (findByUsername db (stripAt username)).map _map_user_from_db

/-- `database.py` `get_user_by_github_username`. -/
def get_user_by_github_username (db : DB) (github_username : String) :
    Option User :=
  (db.find? (fun r => r.github_username == some github_username)).map
    _map_user_from_db

/-- The row inserted by `get_or_create_user`: the insert payload carries only
`id`, `username`, `first_name`, `created_at`; every other column is left to
the storage schema's defaults (`NULL`/0 for the mandatory columns, absent for
the `Option`-modelled counter columns). -/
def newUserRow (user_id : Int) (username : Option String)
    (first_name created_at : String) : DBRow :=
  { id := user_id
    username := username
    first_name := first_name
    github_username := none
    wallet_address := none
    builder_score := 0
    created_at := created_at
    nominations_received := none
    nominations_given := none
    telegram_messages := none
    telegram_replies := none
    github_commits := none
    github_prs := none
    github_issues := none }

/-- `database.py` `get_or_create_user` (fault-free storage semantics):
read by primary key; if absent, insert a new row using the call's timestamp
`now` as `created_at`.  Returns the logical view and the resulting table. -/
def get_or_create_user (db : DB) (user_id : Int) (username : Option String)
    (first_name : String) (now : String) : User × DB :=
  match findById db user_id with
  | some r => (_map_user_from_db r, db)
  | none =>
      let nr := newUserRow user_id username first_name now
      (_map_user_from_db nr, db ++ [nr])

/-- `database.py` `update_user_github`: single-column overwrite by id. -/
def update_user_github (db : DB) (user_id : Int) (github_username : String) :
    Bool × DB :=
  (true, updateById db user_id
    (fun r => { r with github_username := some github_username }))

/-- `database.py` `update_user_wallet`: single-column overwrite by id. -/
def update_user_wallet (db : DB) (user_id : Int) (wallet_address : String) :
    Bool × DB :=
  (true, updateById db user_id
    (fun r => { r with wallet_address := some wallet_address }))

/-- `database.py` `update_user_builder_score`. -/
def update_user_builder_score (db : DB) (user_id : Int) (score : Int) :
    Bool × DB :=
  (true, updateById db user_id (fun r => { r with builder_score := score }))

/-- `database.py` `update_telegram_activity`: rejects kinds other than
`messages`/`replies`; otherwise reads the current nested counter via
`get_user` and writes `value + 1` into the corresponding flat column
(`telegram_messages` or `telegram_replies`), a read-modify-write. -/
def update_telegram_activity (db : DB) (user_id : Int)
    (activity_type : String) : Bool × DB :=
  if activity_type ∉ ["messages", "replies"] then (false, db)
  else
    match get_user db user_id with
    | none => (false, db)
    | some user =>
        let current_val :=
          if activity_type == "messages" then user.telegram_activity.messages
          else user.telegram_activity.replies
        (true, updateById db user_id (fun r =>
          if activity_type == "messages" then
            { r with telegram_messages := some (current_val + 1) }
          else
            { r with telegram_replies := some (current_val + 1) }))

/-- `database.py` `update_github_contribution`: rejects invalid kinds, fails
closed when no user has linked the GitHub identity, else the same
read-modify-write on the matching flat column. -/
def update_github_contribution (db : DB) (github_username : String)
    (contribution_type : String) : Bool × DB :=
  if contribution_type ∉ ["commits", "prs", "issues"] then (false, db)
  else
    match get_user_by_github_username db github_username with
    | none => (false, db)
    | some user =>
        let current_val :=
          if contribution_type == "commits" then
            user.github_contributions.commits
          else if contribution_type == "prs" then
            user.github_contributions.prs
          else user.github_contributions.issues
        (true, updateByGithubUsername db github_username (fun r =>
          if contribution_type == "commits" then
            { r with github_commits := some (current_val + 1) }
          else if contribution_type == "prs" then
            { r with github_prs := some (current_val + 1) }
          else { r with github_issues := some (current_val + 1) }))

/-- Status field of `add_nomination`'s structured result. -/
inductive NomStatus where
  | success
  | error
deriving DecidableEq

/-- Structured result of `add_nomination`: `{status, message, nominee?}`
(the `nominee` key is present only on the success path). -/
structure NomResult where
  status : NomStatus
  message : String
  nominee : Option User
deriving DecidableEq

/-- `database.py` `add_nomination` (fault-free storage semantics): strips a
leading `@`, validates (nominator exists, nominee exists, no self-nomination,
no duplicate), then performs the two independent writes — append to the
nominator's `nominations_given`, and write `nominations_received + 1` on the
row whose id is the nominee's — and re-reads the nominee. -/
def add_nomination (db : DB) (nominator_id : Int) (nominee_username : String) :
    NomResult × DB :=
  let nominee_username := stripAt nominee_username
  match get_user db nominator_id with
  | none =>
      ({ status := .error
         message := "You must set up your profile before nominating others"
         nominee := none }, db)
  | some nominator =>
      match get_user_by_username db nominee_username with
      | none =>
          ({ status := .error
             message := "User @" ++ nominee_username ++
               " not found. Make sure they have set up their profile."
             nominee := none }, db)
      | some nominee =>
          if nominator_id == nominee.user_id then
            ({ status := .error
               message := "You cannot nominate yourself"
               nominee := none }, db)
          else if nominee_username ∈ nominator.nominations_given then
            ({ status := .error
               message := "You have already nominated @" ++ nominee_username
               nominee := none }, db)
          else
            let new_nominations :=
              nominator.nominations_given ++ [nominee_username]
            let db1 := updateById db nominator_id
              (fun r => { r with nominations_given := some new_nominations })
            let db2 := updateById db1 nominee.user_id
              (fun r => { r with
                nominations_received := some (nominee.nominations_received + 1) })
            let updated_nominee := get_user_by_username db2 nominee_username
            ({ status := .success
               message := "You have successfully nominated @" ++
                 nominee_username
               nominee := updated_nominee }, db2)

/-!
## Identity Gateway (`auth_service.py`)

The external passport SDK is modelled by `SdkBehavior`: each SDK entry point
either returns a value or raises (`Except.error`).  Gateway operations are
given in the exception monad `Except String`, structured exactly as the
source's `try`/`except` blocks, so "an exception crosses the boundary" is
visible as an `Except.error` result.
-/

/-- Python `country_code.replace("+", "")`: removes every `+` character. -/
def replacePlus (s : String) : String :=
  String.mk (s.data.filter (fun c => c ≠ '+'))

/-- Modelled from the spec: "normalizes `country_code` by stripping any
leading `+`".  Used only to compare the source's `replace`-all behaviour
against the spec's wording. -/
def spec_stripLeadingPlus (s : String) : String :=
  if s.data.head? = some '+' then String.mk s.data.tail else s

/-- A country code is a valid input when at most its first character is `+`
(no `+` appears past the first character). -/
def ValidCountryCode (s : String) : Prop :=
  '+' ∉ s.data.drop 1

instance (s : String) : Decidable (ValidCountryCode s) := by
  unfold ValidCountryCode; infer_instance

/-- Behaviour of the external ZoPassport SDK: what each consumed entry point
returns or raises.  `α` is the (opaque) payload type of `auth.send_otp`
results, `β` of `login_with_phone` results. -/
structure SdkBehavior (α β : Type) where
  initExc : Option String
  sendOtp : String → String → Except String α
  loginWithPhone : String → String → String → Except String β
  closeExc : Option String

/-- Uniform result shape of the gateway: the provider's result verbatim, or
the normalized `{"success": False, "message": str(e)}` failure envelope. -/
inductive Envelope (α : Type) where
  | result (r : α)
  | failure (message : String)
deriving DecidableEq

/-- `ZoAuthService.get_sdk`: if the singleton is already cached, return it;
otherwise require `ZO_CLIENT_KEY` (raising `ValueError` when missing),
construct the SDK and `initialize` it (which may itself raise). -/
def get_sdk {α β : Type} (cached : Bool) (key : Option String)
    (sdk : SdkBehavior α β) : Except String Unit :=
  if cached then .ok ()
  else
    match key with
    | none => .error "ZO_CLIENT_KEY is required"
    | some _ =>
        match sdk.initExc with
        | some e => .error e
        | none => .ok ()

/-- `ZoAuthService.send_otp`: inside one `try`, acquire the SDK, strip `+`
from the country code, forward both arguments to `auth.send_otp`; any
exception is caught and mapped to the failure envelope.  The outer
`Except String` is the operation's boundary: `.error` would mean an
exception escaped to the caller. -/
def send_otp {α β : Type} (cached : Bool) (key : Option String)
    (sdk : SdkBehavior α β) (country_code phone_number : String) :
    Except String (Envelope α) :=
  match (do
      let _ ← get_sdk cached key sdk
      let country_code := replacePlus country_code
      sdk.sendOtp country_code phone_number : Except String α) with
  | .ok r => .ok (.result r)
  | .error e => .ok (.failure e)

/-- `ZoAuthService.verify_otp`: same structure, forwarding to
`login_with_phone`. -/
def verify_otp {α β : Type} (cached : Bool) (key : Option String)
    (sdk : SdkBehavior α β) (country_code phone_number otp : String) :
    Except String (Envelope β) :=
  match (do
      let _ ← get_sdk cached key sdk
      let country_code := replacePlus country_code
      sdk.loginWithPhone country_code phone_number otp : Except String β) with
  | .ok r => .ok (.result r)
  | .error e => .ok (.failure e)

/-- `ZoAuthService.close`: `if cls._sdk: await cls._sdk.close()` — there is
no `try`/`except` here, so an exception raised by the SDK's `close()`
propagates to the caller. -/
def auth_close {α β : Type} (sdkCached : Bool) (sdk : SdkBehavior α β) :
    Except String Unit :=
  if sdkCached then
    match sdk.closeExc with
    | some e => .error e
    | none => .ok ()
  else .ok ()

/-!
## Exception-aware User Ledger layer

`FM` threads the store (users table plus projects table) together with a
fault schedule: each `execute()` round trip to the storage client consumes
one schedule slot, and a `some e` slot makes that call raise `e`.  An
`Except.error` that survives to the end of an operation models an exception
escaping `database.py`.  Each `...F` operation below mirrors the source's
control flow, placing `tryCatchF` exactly where the source has
`try`/`except`.
-/

/-- One row of the `projects` table: opaque `data` payload plus
`created_at`. -/
structure ProjectRow where
  data : String
  created_at : String
deriving DecidableEq

/-- Mutable state visible to the storage client: both tables and the
remaining fault schedule. -/
structure FSt where
  db : DB
  projects : List ProjectRow
  faults : List (Option String)

/-- Exception-and-state monad for `database.py`: state survives a raised
exception (Python mutations done before a raise are not rolled back). -/
def FM (α : Type) : Type := FSt → Except String α × FSt

/-- `pure` of the Python exception/state monad. -/
def pureFM {α : Type} (a : α) : FM α := fun s => (.ok a, s)

/-- Sequencing in the Python exception/state monad: a raised exception skips
the continuation but keeps the state mutations already performed. -/
def bindFM {α β : Type} (m : FM α) (k : α → FM β) : FM β := fun s =>
  match m s with
  | (.ok a, s') => k a s'
  | (.error e, s') => (.error e, s')

instance : Monad FM where
  pure := pureFM
  bind := bindFM

/-- Python `try ... except ...`: run `m`; on an exception run the handler
from the state reached when the exception was raised. -/
def tryCatchF {α : Type} (m : FM α) (h : String → FM α) : FM α :=
  fun s =>
    match m s with
    | (.error e, s') => h e s'
    | ok => ok

/-- One `execute()` round trip against the users/projects store: consumes
one fault-schedule slot; a `some e` slot raises `e` before the call's effect
is applied, otherwise `act` is applied to the state. -/
def execF {α : Type} (act : DB × List ProjectRow → α × DB × List ProjectRow) :
    FM α :=
  fun s =>
    match s.faults with
    | [] =>
        let (a, db', ps') := act (s.db, s.projects)
        (.ok a, ⟨db', ps', []⟩)
    | f :: rest =>
        match f with
        | some e => (.error e, ⟨s.db, s.projects, rest⟩)
        | none =>
            let (a, db', ps') := act (s.db, s.projects)
            (.ok a, ⟨db', ps', rest⟩)

/-- A storage round trip that only reads. -/
def queryF {α : Type} (q : DB → α) : FM α :=
  execF (fun st => (q st.1, st.1, st.2))

/-- A storage round trip that only writes the users table. -/
def writeF (w : DB → DB) : FM Unit :=
  execF (fun st => ((), w st.1, st.2))

/-- `get_user`, exception-aware: the single select is inside `try`, and the
`except` branch returns `None`. -/
def get_userF (user_id : Int) : FM (Option User) :=
  tryCatchF
    (do
      let row ← queryF (fun db => findById db user_id)
      pure (row.map _map_user_from_db))
    (fun _ => pure none)

/-- `get_user_by_username`, exception-aware. -/
def get_user_by_usernameF (username : String) : FM (Option User) :=
  tryCatchF
    (do
      let row ← queryF (fun db => findByUsername db (stripAt username))
      pure (row.map _map_user_from_db))
    (fun _ => pure none)

/-- `get_user_by_github_username`, exception-aware. -/
def get_user_by_github_usernameF (github_username : String) :
    FM (Option User) :=
  tryCatchF
    (do
      let row ← queryF (fun db =>
        db.find? (fun r => r.github_username == some github_username))
      pure (row.map _map_user_from_db))
    (fun _ => pure none)

/-- `get_all_users`, exception-aware: full scan, `[]` on exception. -/
def get_all_usersF : FM (List User) :=
  tryCatchF
    (do
      let rows ← queryF (fun db => db)
      pure (rows.map _map_user_from_db))
    (fun _ => pure [])

/-- `get_or_create_user`, exception-aware: select then (maybe) insert, both
inside one `try`; `{}` (modelled `none`) on exception. -/
def get_or_create_userF (user_id : Int) (username : Option String)
    (first_name now : String) : FM (Option User) :=
  tryCatchF
    (do
      let row ← queryF (fun db => findById db user_id)
      match row with
      | some r => pure (some (_map_user_from_db r))
      | none =>
          let nr := newUserRow user_id username first_name now
          let inserted ← execF (fun st => (nr, st.1 ++ [nr], st.2))
          pure (some (_map_user_from_db inserted)))
    (fun _ => pure none)

/-- `update_user_github`, exception-aware: one update inside `try`,
`False` on exception. -/
def update_user_githubF (user_id : Int) (github_username : String) :
    FM Bool :=
  tryCatchF
    (do
      writeF (fun db => updateById db user_id
        (fun r => { r with github_username := some github_username }))
      pure true)
    (fun _ => pure false)

/-- `update_user_wallet`, exception-aware. -/
def update_user_walletF (user_id : Int) (wallet_address : String) : FM Bool :=
  tryCatchF
    (do
      writeF (fun db => updateById db user_id
        (fun r => { r with wallet_address := some wallet_address }))
      pure true)
    (fun _ => pure false)

/-- `update_user_builder_score`, exception-aware. -/
def update_user_builder_scoreF (user_id : Int) (score : Int) : FM Bool :=
  tryCatchF
    (do
      writeF (fun db => updateById db user_id
        (fun r => { r with builder_score := score }))
      pure true)
    (fun _ => pure false)

/-- `update_telegram_activity`, exception-aware: the kind guard is outside
the `try`; the read (via `get_user`, which catches its own storage fault)
and the write are inside. -/
def update_telegram_activityF (user_id : Int) (activity_type : String) :
    FM Bool :=
  if activity_type ∉ ["messages", "replies"] then pure false
  else
    tryCatchF
      (do
        let user ← get_userF user_id
        match user with
        | none => pure false
        | some user =>
            let current_val :=
              if activity_type == "messages" then
                user.telegram_activity.messages
              else user.telegram_activity.replies
            writeF (fun db => updateById db user_id (fun r =>
              if activity_type == "messages" then
                { r with telegram_messages := some (current_val + 1) }
              else { r with telegram_replies := some (current_val + 1) }))
            pure true)
      (fun _ => pure false)

/-- `update_github_contribution`, exception-aware: guard and user lookup are
outside the `try` (the lookup catches internally); the write is inside. -/
def update_github_contributionF (github_username contribution_type : String) :
    FM Bool :=
  if contribution_type ∉ ["commits", "prs", "issues"] then pure false
  else do
    let user ← get_user_by_github_usernameF github_username
    match user with
    | none => pure false
    | some user =>
        let current_val :=
          if contribution_type == "commits" then
            user.github_contributions.commits
          else if contribution_type == "prs" then
            user.github_contributions.prs
          else user.github_contributions.issues
        tryCatchF
          (do
            writeF (fun db => updateByGithubUsername db github_username
              (fun r =>
                if contribution_type == "commits" then
                  { r with github_commits := some (current_val + 1) }
                else if contribution_type == "prs" then
                  { r with github_prs := some (current_val + 1) }
                else { r with github_issues := some (current_val + 1) }))
            pure true)
          (fun _ => pure false)

/-- `add_nomination`, exception-aware: all four validations run outside the
`try` (their lookups catch internally); the two writes and the re-read are
inside one `try` whose handler returns the `"Database error"` result. -/
def add_nominationF (nominator_id : Int) (nominee_username : String) :
    FM NomResult :=
  let nominee_username := stripAt nominee_username
  do
    let nominator ← get_userF nominator_id
    match nominator with
    | none =>
        pure { status := .error
               message := "You must set up your profile before nominating others"
               nominee := none }
    | some nominator =>
        let nominee ← get_user_by_usernameF nominee_username
        match nominee with
        | none =>
            pure { status := .error
                   message := "User @" ++ nominee_username ++
                     " not found. Make sure they have set up their profile."
                   nominee := none }
        | some nominee =>
            if nominator_id == nominee.user_id then
              pure { status := .error
                     message := "You cannot nominate yourself"
                     nominee := none }
            else if nominee_username ∈ nominator.nominations_given then
              pure { status := .error
                     message := "You have already nominated @" ++
                       nominee_username
                     nominee := none }
            else
              tryCatchF
                (do
                  let new_nominations :=
                    nominator.nominations_given ++ [nominee_username]
                  writeF (fun db => updateById db nominator_id (fun r =>
                    { r with nominations_given := some new_nominations }))
                  writeF (fun db => updateById db nominee.user_id (fun r =>
                    { r with
                      nominations_received := some (nominee.nominations_received + 1) }))
                  let updated_nominee ←
                    get_user_by_usernameF nominee_username
                  pure { status := .success
                         message := "You have successfully nominated @" ++
                           nominee_username
                         nominee := updated_nominee })
                (fun _ => pure { status := .error
                                 message := "Database error"
                                 nominee := none })

/-- Stable insertion into a list kept in descending key order. -/
def insertDescBy {α : Type} (le : α → α → Bool) (x : α) : List α → List α
  | [] => [x]
  | y :: ys => if le x y then y :: insertDescBy le x ys else x :: y :: ys

/-- `order(col, desc=True)`: sort descending by the given `le`. -/
def sortDescBy {α : Type} (le : α → α → Bool) (l : List α) : List α :=
  l.foldr (insertDescBy le) []

/-- `get_top_builders`, exception-aware: order by `builder_score`
descending, limit, map; `[]` on exception. -/
def get_top_buildersF (limit : Nat) : FM (List User) :=
  tryCatchF
    (do
      let rows ← queryF (fun db =>
        (sortDescBy (fun a b => a.builder_score ≤ b.builder_score) db).take
          limit)
      pure (rows.map _map_user_from_db))
    (fun _ => pure [])

/-- `save_project`, exception-aware: one insert into `projects` inside
`try`, `False` on exception.  The payload timestamp is supplied by the
store. -/
def save_projectF (project_data : String) (now : String) : FM Bool :=
  tryCatchF
    (do
      execF (fun st => ((), st.1, st.2 ++ [⟨project_data, now⟩]))
      pure true)
    (fun _ => pure false)

/-- `get_projects`, exception-aware: most-recent-first bounded read of the
`projects` table, returning the raw `data` payloads; `[]` on exception. -/
def get_projectsF (limit : Nat) : FM (List String) :=
  tryCatchF
    (do
      let rows ← execF (fun st =>
        ((sortDescBy (fun a b => a.created_at ≤ b.created_at) st.2).take
          limit, st.1, st.2))
      pure (rows.map (fun r => r.data)))
    (fun _ => pure [])

/-!
## Reachability and the nomination counter-pair invariant
-/

/-- `nominations_received` column with the schema default. -/
def receivedOf (r : DBRow) : Nat := r.nominations_received.getD 0

/-- `nominations_given` column with the schema default. -/
def givenOf (r : DBRow) : List String := r.nominations_given.getD []

/-- The id of the user a stored given-list entry `n` refers to: the entry was
passed through `get_user_by_username`, which strips one further leading `@`
and takes the first row with that username.  (Usernames never change and
inserts append, so this resolution is stable over time.) -/
def resolveId (db : DB) (n : String) : Option Int :=
  (findByUsername db (stripAt n)).map (fun r => r.id)

/-- Total number of given-list entries anywhere in the store that resolve to
the user with id `i` — the number of increments the nomination workflow owes
to that user's `nominations_received` counter. -/
def nominationsFor (db : DB) (i : Int) : Nat :=
  (db.map (fun v => (givenOf v).countP (fun n => resolveId db n == some i))).sum

/-- Primary-key discipline: all row ids are distinct. -/
def UniqueIds (db : DB) : Prop :=
  db.Pairwise (fun r s => r.id ≠ s.id)

/-- Every stored given-list entry resolves to some user. -/
def NamesResolve (db : DB) : Prop :=
  ∀ v ∈ db, ∀ n ∈ givenOf v, (resolveId db n).isSome

/-- The counter-pair consistency property of claim C1: each user's
`nominations_received` equals the number of given-list entries that refer to
that user. -/
def CounterPairConsistent (db : DB) : Prop :=
  ∀ u ∈ db, receivedOf u = nominationsFor db u.id

/-- Inductive invariant of the users store. -/
def LedgerInv (db : DB) : Prop :=
  UniqueIds db ∧ NamesResolve db ∧ CounterPairConsistent db

/-- One mutating operation of the User Ledger applied to the users store
(fault-free storage semantics).  The read-only operations and the
`projects`-table operations do not touch the users store. -/
inductive Step : DB → DB → Prop where
  | create (db : DB) (user_id : Int) (username : Option String)
      (first_name now : String) :
      Step db (get_or_create_user db user_id username first_name now).2
  | github (db : DB) (user_id : Int) (g : String) :
      Step db (update_user_github db user_id g).2
  | wallet (db : DB) (user_id : Int) (w : String) :
      Step db (update_user_wallet db user_id w).2
  | score (db : DB) (user_id : Int) (s : Int) :
      Step db (update_user_builder_score db user_id s).2
  | telegram (db : DB) (user_id : Int) (kind : String) :
      Step db (update_telegram_activity db user_id kind).2
  | contribution (db : DB) (g kind : String) :
      Step db (update_github_contribution db g kind).2
  | nominate (db : DB) (nominator_id : Int) (nominee_username : String) :
      Step db (add_nomination db nominator_id nominee_username).2

/-- States of the users store reachable from the empty store by ledger
operations. -/
inductive Reachable : DB → Prop where
  | init : Reachable []
  | step {db db' : DB} : Reachable db → Step db db' → Reachable db'

/-- The four validation checks of `add_nomination`, in source order: the
result is `true` exactly when one of them rejects the request. -/
def validationFails (db : DB) (nominator_id : Int) (nominee_username : String) :
    Bool :=
  let nominee_username := stripAt nominee_username
  match get_user db nominator_id with
  | none => true
  | some nominator =>
      match get_user_by_username db nominee_username with
      | none => true
      | some nominee =>
          nominator_id == nominee.user_id ||
            nominator.nominations_given.contains nominee_username

/-- The nested view after one successful `update_telegram_activity` of the
given kind. -/
def bumpTelegram (kind : String) (u : User) : User :=
  if kind == "messages" then
    { u with telegram_activity :=
        { u.telegram_activity with
          messages := u.telegram_activity.messages + 1 } }
  else
    { u with telegram_activity :=
        { u.telegram_activity with
          replies := u.telegram_activity.replies + 1 } }

/-!
## Concrete fixtures used by the witness theorems
-/

/-- Fixture: a fresh user `al` with id 1. -/
def rowAl : DBRow := newUserRow 1 (some "al") "Al" "t1"

/-- Fixture: a fresh user `bee` with id 2. -/
def rowBee : DBRow := newUserRow 2 (some "bee") "Bee" "t2"

/-- Fixture store with two fresh users. -/
def twoUserDb : DB := [rowAl, rowBee]

/-- Fixture store in which user 1 has already nominated `bee` and user 2's
counter reflects it. -/
def alreadyNominatedDb : DB :=
  [{ rowAl with nominations_given := some ["bee"] },
   { rowBee with nominations_received := some 1 }]

/-!
## Helper lemmas
-/

theorem mapUser_id (r : DBRow) : (_map_user_from_db r).user_id = r.id := rfl

theorem mapUser_given (r : DBRow) :
    (_map_user_from_db r).nominations_given = givenOf r := rfl

theorem mapUser_received (r : DBRow) :
    (_map_user_from_db r).nominations_received = receivedOf r := rfl

theorem find?_map_pred {α : Type} (g : α → α) (p : α → Bool)
    (hp : ∀ r, p (g r) = p r) (l : List α) :
    (l.map g).find? p = (l.find? p).map g := by
  induction l with
  | nil => rfl
  | cons a l ih =>
      by_cases hpa : p a
      · rw [List.map_cons, List.find?_cons_of_pos _ (by rw [hp]; exact hpa),
          List.find?_cons_of_pos _ hpa, Option.map_some']
      · rw [List.map_cons, List.find?_cons_of_neg _ (by rw [hp]; exact hpa),
          List.find?_cons_of_neg _ hpa, ih]

theorem findById_map (db : DB) (g : DBRow → DBRow) (i : Int)
    (hid : ∀ r, (g r).id = r.id) :
    findById (db.map g) i = (findById db i).map g :=
  find?_map_pred g _ (fun r => by rw [hid]) db

theorem findByUsername_map (db : DB) (g : DBRow → DBRow) (n : String)
    (hun : ∀ r, (g r).username = r.username) :
    findByUsername (db.map g) n = (findByUsername db n).map g :=
  find?_map_pred g _ (fun r => by rw [hun]) db

theorem resolveId_map (db : DB) (g : DBRow → DBRow) (n : String)
    (hid : ∀ r, (g r).id = r.id) (hun : ∀ r, (g r).username = r.username) :
    resolveId (db.map g) n = resolveId db n := by
  unfold resolveId
  rw [findByUsername_map db g _ hun]
  cases h : findByUsername db (stripAt n)
  · rfl
  · simp [hid]

theorem get_user_eq_some {db : DB} {i : Int} {u : User}
    (h : get_user db i = some u) :
    ∃ r, findById db i = some r ∧ _map_user_from_db r = u ∧ r ∈ db ∧
      r.id = i := by
  unfold get_user at h
  rcases Option.map_eq_some'.mp h with ⟨r, hr, hm⟩
  refine ⟨r, hr, hm, List.mem_of_find?_eq_some hr, ?_⟩
  have hp := List.find?_some hr
  simpa using hp

theorem get_user_by_username_eq_some {db : DB} {n : String} {u : User}
    (h : get_user_by_username db n = some u) :
    ∃ r, findByUsername db (stripAt n) = some r ∧ _map_user_from_db r = u ∧
      r ∈ db ∧ r.username = some (stripAt n) := by
  unfold get_user_by_username at h
  rcases Option.map_eq_some'.mp h with ⟨r, hr, hm⟩
  refine ⟨r, hr, hm, List.mem_of_find?_eq_some hr, ?_⟩
  have hp := List.find?_some hr
  simpa using hp

theorem unique_row {db : DB} (hu : UniqueIds db) {r v : DBRow}
    (hr : r ∈ db) (hv : v ∈ db) (h : r.id = v.id) : r = v := by
  by_contra hne
  exact List.Pairwise.forall (fun {_ _} h => Ne.symm h) hu hr hv hne h

theorem countP_id_eq_one :
    ∀ {db : DB}, UniqueIds db → ∀ {r : DBRow} {a : Int}, r ∈ db → r.id = a →
      db.countP (fun v => v.id == a) = 1 := by
  intro db
  induction db with
  | nil => intro _ r a h _; cases h
  | cons x xs ih =>
      intro hu r a hr hid
      rcases List.pairwise_cons.mp hu with ⟨hx, hxs⟩
      rcases List.mem_cons.mp hr with hrx | hrxs
      · rw [List.countP_cons,
          if_pos (by simp only [beq_iff_eq]; rw [← hrx]; exact hid)]
        have h0 : xs.countP (fun v => v.id == a) = 0 :=
          List.countP_eq_zero.mpr (fun y hy => by
            simp only [beq_iff_eq]
            intro hya
            exact hx y hy (by rw [← hrx, hid, hya]))
        omega
      · have hxa : ¬(x.id == a) = true := by
          simp only [beq_iff_eq]
          intro hxa
          exact hx r hrxs (by rw [hxa, hid])
        rw [List.countP_cons, if_neg hxa, ih hxs hrxs hid]

theorem findById_eq_of_unique {db : DB} (hu : UniqueIds db) {r : DBRow}
    (hr : r ∈ db) : findById db r.id = some r := by
  cases h : findById db r.id with
  | none =>
      unfold findById at h
      rw [List.find?_eq_none] at h
      exact absurd (by simp) (h r hr)
  | some v =>
      have hv : v ∈ db := List.mem_of_find?_eq_some h
      have hpv : v.id = r.id := by simpa using List.find?_some h
      rw [unique_row hu hv hr hpv]

theorem sum_map_add {α : Type} (l : List α) (c d : α → Nat) :
    (l.map (fun v => c v + d v)).sum = (l.map c).sum + (l.map d).sum := by
  induction l with
  | nil => rfl
  | cons a l ih => simp [ih]; omega

theorem sum_map_ite {α : Type} (l : List α) (p : α → Bool) (k : Nat) :
    (l.map (fun v => if p v then k else 0)).sum = k * l.countP p := by
  induction l with
  | nil => simp
  | cons a l ih =>
      by_cases h : p a
      · rw [List.map_cons, List.sum_cons, if_pos h, ih, List.countP_cons,
          if_pos h, Nat.mul_add, Nat.mul_one]
        omega
      · rw [List.map_cons, List.sum_cons, if_neg h, ih, List.countP_cons,
          if_neg h, Nat.add_zero, Nat.zero_add]

/-!
## Claim theorems
-/

/-- **C6.** Translator totality: `_map_user_from_db` is total on every
storage row; each logical field comes from its deterministic source column,
and when a counter column (or `nominations_given`) is absent the documented
default (0, resp. the empty list) is produced. -/
theorem translator_total (r : DBRow) :
    (_map_user_from_db r).user_id = r.id ∧
    (_map_user_from_db r).username = r.username ∧
    (_map_user_from_db r).first_name = r.first_name ∧
    (_map_user_from_db r).github_username = r.github_username ∧
    (_map_user_from_db r).wallet_address = r.wallet_address ∧
    (_map_user_from_db r).builder_score = r.builder_score ∧
    (_map_user_from_db r).created_at = r.created_at ∧
    (_map_user_from_db r).nominations_received =
      r.nominations_received.getD 0 ∧
    (_map_user_from_db r).nominations_given = r.nominations_given.getD [] ∧
    (_map_user_from_db r).telegram_activity.messages =
      r.telegram_messages.getD 0 ∧
    (_map_user_from_db r).telegram_activity.replies =
      r.telegram_replies.getD 0 ∧
    (_map_user_from_db r).github_contributions.commits =
      r.github_commits.getD 0 ∧
    (_map_user_from_db r).github_contributions.prs = r.github_prs.getD 0 ∧
    (_map_user_from_db r).github_contributions.issues =
      r.github_issues.getD 0 ∧
    (r.nominations_received = none →
      (_map_user_from_db r).nominations_received = 0) ∧
    (r.nominations_given = none →
      (_map_user_from_db r).nominations_given = []) ∧
    (r.telegram_messages = none →
      (_map_user_from_db r).telegram_activity.messages = 0) ∧
    (r.telegram_replies = none →
      (_map_user_from_db r).telegram_activity.replies = 0) ∧
    (r.github_commits = none →
      (_map_user_from_db r).github_contributions.commits = 0) ∧
    (r.github_prs = none →
      (_map_user_from_db r).github_contributions.prs = 0) ∧
    (r.github_issues = none →
      (_map_user_from_db r).github_contributions.issues = 0) := by
  refine ⟨rfl, rfl, rfl, rfl, rfl, rfl, rfl, rfl, rfl, rfl, rfl, rfl, rfl,
    rfl, ?_, ?_, ?_, ?_, ?_, ?_, ?_⟩ <;>
    intro h <;> simp [_map_user_from_db, h]

/-- Witness for C6 at a concrete row whose counter columns are absent. -/
theorem translator_total_witness :
    rowAl.nominations_given = none ∧
    (_map_user_from_db rowAl).nominations_given = [] ∧
    (_map_user_from_db rowAl).telegram_activity.messages = 0 := by
  obtain ⟨-, -, -, -, -, -, -, -, -, -, -, -, -, -, -, h2, h3, -, -, -, -⟩ :=
    translator_total rowAl
  exact ⟨rfl, h2 rfl, h3 rfl⟩

/-- **C7.** Round-trip of the flat/nested translation: inserting a fresh
user's flat row and mapping it back through `_map_user_from_db` (as
`get_user` does) reproduces the nested counters exactly, all zero because
the corresponding columns were never set. -/
theorem insert_round_trip (db : DB) (user_id : Int) (username : Option String)
    (first_name now : String) (habs : findById db user_id = none) :
    (get_or_create_user db user_id username first_name now).1.telegram_activity
      = ⟨0, 0⟩ ∧
    (get_or_create_user db user_id username first_name
      now).1.github_contributions = ⟨0, 0, 0⟩ ∧
    get_user (get_or_create_user db user_id username first_name now).2 user_id
      = some (get_or_create_user db user_id username first_name now).1 := by
  simp only [get_or_create_user, habs]
  refine ⟨rfl, rfl, ?_⟩
  unfold get_user findById
  rw [List.find?_append]
  unfold findById at habs
  rw [habs]
  simp [newUserRow]

/-- Witness for C7 on the empty store. -/
theorem insert_round_trip_witness :
    (get_or_create_user [] 1 (some "al") "Al" "t1").1.telegram_activity
      = ⟨0, 0⟩ ∧
    (get_or_create_user [] 1 (some "al") "Al" "t1").1.github_contributions
      = ⟨0, 0, 0⟩ ∧
    get_user (get_or_create_user [] 1 (some "al") "Al" "t1").2 1
      = some (get_or_create_user [] 1 (some "al") "Al" "t1").1 :=
  insert_round_trip [] 1 (some "al") "Al" "t1" rfl

/-- **C9.** `get_or_create_user` idempotence: under the primary-key
discipline (at most one row per id), calling it twice with the same id
returns the same logical row both times (in particular the `created_at`
written by the first call), leaves the store of the first call unchanged,
and the store holds exactly one row with that id. -/
theorem get_or_create_user_idempotent (db : DB) (user_id : Int)
    (username : Option String) (first_name t1 t2 : String)
    (hpk : db.countP (fun r => r.id == user_id) ≤ 1) :
    (get_or_create_user
        (get_or_create_user db user_id username first_name t1).2
        user_id username first_name t2).1
      = (get_or_create_user db user_id username first_name t1).1 ∧
    (get_or_create_user
        (get_or_create_user db user_id username first_name t1).2
        user_id username first_name t2).2
      = (get_or_create_user db user_id username first_name t1).2 ∧
    (get_or_create_user db user_id username first_name t1).2.countP
        (fun r => r.id == user_id) = 1 := by
  cases h : findById db user_id with
  | some r =>
      have h' : List.find? (fun v => v.id == user_id) db = some r := h
      have hmem := List.mem_of_find?_eq_some h'
      have hone : db.countP (fun v => v.id == user_id) = 1 := by
        have hpr : (fun v : DBRow => v.id == user_id) r = true :=
          @List.find?_some DBRow (fun v => v.id == user_id) r db h'
        have hpos : 0 < db.countP (fun v => v.id == user_id) :=
          List.countP_pos_iff.mpr ⟨r, hmem, hpr⟩
        omega
      have e : get_or_create_user db user_id username first_name t1
          = (_map_user_from_db r, db) := by
        simp only [get_or_create_user, h]
      have e2 : get_or_create_user db user_id username first_name t2
          = (_map_user_from_db r, db) := by
        simp only [get_or_create_user, h]
      rw [e, e2]
      exact ⟨rfl, rfl, hone⟩
  | none =>
      have h' : List.find? (fun v => v.id == user_id) db = none := h
      have hz : db.countP (fun v => v.id == user_id) = 0 :=
        List.countP_eq_zero.mpr (List.find?_eq_none.mp h')
      have hfind : findById (db ++ [newUserRow user_id username first_name t1])
          user_id = some (newUserRow user_id username first_name t1) := by
        unfold findById
        rw [List.find?_append, h']
        simp [newUserRow]
      have e : get_or_create_user db user_id username first_name t1
          = (_map_user_from_db (newUserRow user_id username first_name t1),
             db ++ [newUserRow user_id username first_name t1]) := by
        simp only [get_or_create_user, h]
      have e2 : get_or_create_user
          (db ++ [newUserRow user_id username first_name t1])
          user_id username first_name t2
          = (_map_user_from_db (newUserRow user_id username first_name t1),
             db ++ [newUserRow user_id username first_name t1]) := by
        simp only [get_or_create_user, hfind]
      rw [e, e2]
      refine ⟨rfl, rfl, ?_⟩
      rw [List.countP_append, hz]
      simp [newUserRow]

/-- Witness for C9 on the empty store. -/
theorem get_or_create_user_idempotent_witness :
    (get_or_create_user (get_or_create_user [] 1 (some "al") "Al" "t1").2
        1 (some "al") "Al" "t2").1
      = (get_or_create_user [] 1 (some "al") "Al" "t1").1 ∧
    (get_or_create_user (get_or_create_user [] 1 (some "al") "Al" "t1").2
        1 (some "al") "Al" "t2").2
      = (get_or_create_user [] 1 (some "al") "Al" "t1").2 ∧
    (get_or_create_user [] 1 (some "al") "Al" "t1").2.countP
        (fun r => r.id == 1) = 1 :=
  get_or_create_user_idempotent [] 1 (some "al") "Al" "t1" "t2"
    (by decide)

/-- **C2.** `add_nomination` error atomicity: whenever one of the four
validation checks rejects the request (nominator absent, nominee username
unmatched, self-nomination, duplicate nomination), the result has status
`error` and the users store is completely unchanged. -/
theorem add_nomination_error_atomic (db : DB) (nominator_id : Int)
    (nominee_username : String)
    (h : validationFails db nominator_id nominee_username = true) :
    (add_nomination db nominator_id nominee_username).1.status
      = NomStatus.error ∧
    (add_nomination db nominator_id nominee_username).2 = db := by
  simp only [validationFails] at h
  simp only [add_nomination]
  cases hga : get_user db nominator_id with
  | none => simp [hga]
  | some nominator =>
      simp only [hga] at h
      cases hgb : get_user_by_username db (stripAt nominee_username) with
      | none => simp [hga, hgb]
      | some nominee =>
          simp only [hgb] at h
          simp only [hga, hgb]
          rcases Bool.or_eq_true_iff.mp h with hself | hdup
          · rw [if_pos hself]
            exact ⟨rfl, rfl⟩
          · by_cases hself : (nominator_id == nominee.user_id) = true
            · rw [if_pos hself]; exact ⟨rfl, rfl⟩
            · rw [if_neg hself,
                if_pos (List.elem_iff.mp hdup)]
              exact ⟨rfl, rfl⟩

/-- Witness for C2: nominating from the empty store fails the first
validation and writes nothing. -/
theorem add_nomination_error_atomic_witness :
    validationFails [] 1 "bee" = true ∧
    (add_nomination [] 1 "bee").1.status = NomStatus.error ∧
    (add_nomination [] 1 "bee").2 = [] :=
  ⟨rfl, (add_nomination_error_atomic [] 1 "bee" rfl).1,
    (add_nomination_error_atomic [] 1 "bee" rfl).2⟩

theorem get_user_updateById (db : DB) (uid : Int) (f : DBRow → DBRow)
    (hf : ∀ r, (f r).id = r.id) :
    get_user (updateById db uid f) uid =
      (findById db uid).map
        (fun r => _map_user_from_db (if r.id == uid then f r else r)) := by
  unfold get_user updateById
  have hmap := findById_map db (fun r => if r.id == uid then f r else r) uid
    (fun r => by
      show (if (r.id == uid) = true then f r else r).id = r.id
      by_cases hc : (r.id == uid) = true
      · rw [if_pos hc, hf]
      · rw [if_neg hc])
  rw [hmap]
  cases findById db uid <;> rfl

/-- **C4.** `update_telegram_activity` correctness: an invalid kind is
rejected with no mutation; for an existing user and a valid kind the call
reads the current counter, writes its successor back, and reports success —
the user's logical view afterwards is the old view with exactly that counter
incremented (so a fresh user's 0 becomes 1). -/
theorem update_telegram_activity_correct (db : DB) (user_id : Int)
    (kind : String) :
    (kind ∉ ["messages", "replies"] →
      update_telegram_activity db user_id kind = (false, db)) ∧
    (∀ u, kind ∈ ["messages", "replies"] → get_user db user_id = some u →
      (update_telegram_activity db user_id kind).1 = true ∧
      get_user (update_telegram_activity db user_id kind).2 user_id =
        some (bumpTelegram kind u)) := by
  constructor
  · intro h
    unfold update_telegram_activity
    rw [if_pos h]
  · intro u hk hu
    rcases get_user_eq_some hu with ⟨ru, hfind, hmap, hmem, hid⟩
    have hidb : (ru.id == user_id) = true := by simp [hid]
    rcases List.mem_cons.mp hk with hk | hk'
    · subst hk
      unfold update_telegram_activity
      rw [if_neg (by decide)]
      simp only [hu]
      refine ⟨trivial, ?_⟩
      rw [get_user_updateById db user_id _ (fun r => by rfl), hfind,
        Option.map_some', if_pos hidb, ← hmap]
      rfl
    · have hk : kind = "replies" := by simpa using hk'
      subst hk
      unfold update_telegram_activity
      rw [if_neg (by decide)]
      simp only [hu]
      refine ⟨trivial, ?_⟩
      rw [get_user_updateById db user_id _ (fun r => by rfl), hfind,
        Option.map_some', if_pos hidb, ← hmap]
      rfl

/-- Witness for C4: invalid kind `likes` is rejected on a one-user store;
`messages` on a fresh user succeeds and takes the counter from 0 to 1. -/
theorem update_telegram_activity_correct_witness :
    update_telegram_activity [rowAl] 1 "likes" = (false, [rowAl]) ∧
    (update_telegram_activity [rowAl] 1 "messages").1 = true ∧
    get_user (update_telegram_activity [rowAl] 1 "messages").2 1 =
      some (bumpTelegram "messages" (_map_user_from_db rowAl)) :=
  ⟨(update_telegram_activity_correct [rowAl] 1 "likes").1 (by decide),
   ((update_telegram_activity_correct [rowAl] 1 "messages").2
      (_map_user_from_db rowAl) (by decide) rfl).1,
   ((update_telegram_activity_correct [rowAl] 1 "messages").2
      (_map_user_from_db rowAl) (by decide) rfl).2⟩

/-- **C10.** Frame property of a successful `update_telegram_activity`: the
resulting store is the old store with only the single flat column for the
given kind rewritten on rows whose id matches; every other field of that row
and every other row is untouched. -/
theorem update_telegram_activity_frame (db : DB) (user_id : Int)
    (kind : String) (hk : kind ∈ ["messages", "replies"])
    (hs : (update_telegram_activity db user_id kind).1 = true) :
    ∃ v : Nat,
      (update_telegram_activity db user_id kind).2 =
        db.map (fun r => if r.id == user_id then
          (if kind == "messages" then { r with telegram_messages := some v }
           else { r with telegram_replies := some v })
          else r) := by
  rcases List.mem_cons.mp hk with hk | hk'
  · subst hk
    cases hu : get_user db user_id with
    | none =>
        exfalso
        unfold update_telegram_activity at hs
        rw [if_neg (by decide)] at hs
        simp only [hu] at hs
        exact Bool.false_ne_true hs
    | some u =>
        refine ⟨u.telegram_activity.messages + 1, ?_⟩
        unfold update_telegram_activity updateById
        rw [if_neg (by decide)]
        simp only [hu]
        rfl
  · have hk : kind = "replies" := by simpa using hk'
    subst hk
    cases hu : get_user db user_id with
    | none =>
        exfalso
        unfold update_telegram_activity at hs
        rw [if_neg (by decide)] at hs
        simp only [hu] at hs
        exact Bool.false_ne_true hs
    | some u =>
        refine ⟨u.telegram_activity.replies + 1, ?_⟩
        unfold update_telegram_activity updateById
        rw [if_neg (by decide)]
        simp only [hu]
        rfl

/-- Witness for C10 on a one-user store. -/
theorem update_telegram_activity_frame_witness :
    ∃ v : Nat,
      (update_telegram_activity [rowAl] 1 "messages").2 =
        [rowAl].map (fun r => if r.id == 1 then
          (if "messages" == "messages" then
            { r with telegram_messages := some v }
           else { r with telegram_replies := some v })
          else r) :=
  update_telegram_activity_frame [rowAl] 1 "messages" (by decide) rfl

theorem get_user_map (db : DB) (g : DBRow → DBRow) (i : Int)
    (hid : ∀ r, (g r).id = r.id) :
    get_user (db.map g) i =
      (findById db i).map (fun r => _map_user_from_db (g r)) := by
  unfold get_user
  rw [findById_map db g i hid]
  cases findById db i <;> rfl

theorem get_user_by_username_map (db : DB) (g : DBRow → DBRow) (n : String)
    (hun : ∀ r, (g r).username = r.username) :
    get_user_by_username (db.map g) n =
      (findByUsername db (stripAt n)).map
        (fun r => _map_user_from_db (g r)) := by
  unfold get_user_by_username
  rw [findByUsername_map db g _ hun]
  cases findByUsername db (stripAt n) <;> rfl

theorem add_nomination_success_eq (db : DB) (a : Int) (name : String)
    {na b : User}
    (hA : get_user db a = some na)
    (hB : get_user_by_username db (stripAt name) = some b)
    (hne : (a == b.user_id) = false)
    (hnew : stripAt name ∉ na.nominations_given) :
    add_nomination db a name =
      ({ status := .success
         message := "You have successfully nominated @" ++ stripAt name
         nominee := get_user_by_username
           (updateById
             (updateById db a (fun r =>
               { r with
                 nominations_given := some (na.nominations_given ++ [stripAt name]) }))
             b.user_id (fun r =>
               { r with
                 nominations_received := some (b.nominations_received + 1) }))
           (stripAt name) },
       updateById
         (updateById db a (fun r =>
           { r with
             nominations_given := some (na.nominations_given ++ [stripAt name]) }))
         b.user_id (fun r =>
           { r with
             nominations_received := some (b.nominations_received + 1) })) := by
  simp only [add_nomination, hA, hB]
  rw [if_neg (by simp [hne]), if_neg hnew]

theorem double_update_eq (db : DB) (a bid : Int) (g1 g2 : DBRow → DBRow)
    (h1 : ∀ r, (g1 r).id = r.id) :
    updateById (updateById db a g1) bid g2 =
      db.map (fun r =>
        if r.id == a then (if r.id == bid then g2 (g1 r) else g1 r)
        else (if r.id == bid then g2 r else r)) := by
  unfold updateById
  rw [List.map_map]
  congr 1
  funext r
  simp only [Function.comp_apply]
  by_cases ha : (r.id == a) = true
  · simp [ha, h1 r]
  · simp [ha]

theorem nomination_store_eq (db : DB) (a bid : Int) (gl : List String)
    (c : Nat) (hne : (a == bid) = false) :
    updateById
      (updateById db a (fun r => { r with nominations_given := some gl }))
      bid (fun r => { r with nominations_received := some c }) =
      db.map (fun r =>
        if r.id == a then { r with nominations_given := some gl }
        else if r.id == bid then { r with nominations_received := some c }
        else r) := by
  rw [double_update_eq db a bid
    (fun r => { r with nominations_given := some gl })
    (fun r => { r with nominations_received := some c })
    (fun r => rfl)]
  congr 1
  funext r
  by_cases ha : (r.id == a) = true
  · have hb : ¬(r.id == bid) = true := by
      simp only [beq_iff_eq] at ha hne ⊢
      intro hb
      exact absurd (ha ▸ hb) (by simpa using hne)
    simp [ha, hb]
  · by_cases hb : (r.id == bid) = true <;> simp [ha, hb]

/-- Counterexample to **C3** as stated: `al` (id 1) and `bee` (id 2) are
distinct existing users, yet calling `add_nomination(1, "bee")` does NOT make
the first call succeed — `al` has already nominated `bee`, so the first call
already returns an error and `bee`'s counter is never incremented. -/
theorem add_nomination_twice_cex :
    (get_user alreadyNominatedDb 1).isSome = true ∧
    (get_user_by_username alreadyNominatedDb "bee").isSome = true ∧
    ((get_user_by_username alreadyNominatedDb "bee").map
      (fun u => u.user_id)).getD 0 = 2 ∧
    (add_nomination alreadyNominatedDb 1 "bee").1.status = NomStatus.error ∧
    (add_nomination alreadyNominatedDb 1 "bee").2 = alreadyNominatedDb := by
  refine ⟨rfl, rfl, rfl, rfl, rfl⟩

/-- **C3 (amended).** For distinct existing users A and B (B denoted by the
username that `add_nomination` resolves, under the primary-key discipline),
*provided A has not already nominated B*, two successive
`add_nomination(A, "B")` calls make the first succeed and the second fail
with the "already nominated" error, the second call writes nothing, and B's
`nominations_received` counter is incremented exactly once across the two
calls. -/
theorem add_nomination_twice_amended (db : DB) (a : Int) (name : String)
    (na b : User) (hu : UniqueIds db)
    (hA : get_user db a = some na)
    (hB : get_user_by_username db (stripAt name) = some b)
    (hne : a ≠ b.user_id)
    (hnew : stripAt name ∉ na.nominations_given) :
    (add_nomination db a name).1.status = NomStatus.success ∧
    (add_nomination (add_nomination db a name).2 a name).1.status
      = NomStatus.error ∧
    (add_nomination (add_nomination db a name).2 a name).1.message
      = "You have already nominated @" ++ stripAt name ∧
    (add_nomination (add_nomination db a name).2 a name).2
      = (add_nomination db a name).2 ∧
    ∃ b2 : User,
      get_user (add_nomination (add_nomination db a name).2 a name).2
          b.user_id = some b2 ∧
      b2.nominations_received = b.nominations_received + 1 := by
  have hneb : (a == b.user_id) = false := by simpa using hne
  have hsucc := add_nomination_success_eq db a name hA hB hneb hnew
  rcases get_user_eq_some hA with ⟨ra, hfa, hma, hmema, hida⟩
  rcases get_user_by_username_eq_some hB with ⟨rb, hfb, hmb, hmemb, husb⟩
  have hbid : b.user_id = rb.id := by rw [← hmb]; rfl
  set GG : DBRow → DBRow := (fun r =>
    if r.id == a then
      { r with
        nominations_given := some (na.nominations_given ++ [stripAt name]) }
    else if r.id == b.user_id then
      { r with nominations_received := some (b.nominations_received + 1) }
    else r) with hGG
  have hdb1 : (add_nomination db a name).2 = db.map GG := by
    rw [hsucc, hGG]
    exact nomination_store_eq db a b.user_id _ _ hneb
  have hGGid : ∀ r, (GG r).id = r.id := by
    intro r
    rw [hGG]
    by_cases h1 : (r.id == a) = true
    · simp [h1]
    · by_cases h2 : (r.id == b.user_id) = true <;> simp [h1, h2]
  have hGGun : ∀ r, (GG r).username = r.username := by
    intro r
    rw [hGG]
    by_cases h1 : (r.id == a) = true
    · simp [h1]
    · by_cases h2 : (r.id == b.user_id) = true <;> simp [h1, h2]
  have hGra : GG ra =
      { ra with
        nominations_given := some (na.nominations_given ++ [stripAt name]) }
    := by
    rw [hGG]
    simp [hida]
  have hrbne : ¬(rb.id == a) = true := by
    simp only [beq_iff_eq]
    intro h
    exact hne (by rw [hbid, h])
  have hGrb : GG rb =
      { rb with nominations_received := some (b.nominations_received + 1) }
    := by
    simp only [hGG]
    rw [if_neg hrbne, if_pos (by simp [hbid])]
  have hA2 : get_user (db.map GG) a = some (_map_user_from_db (GG ra)) := by
    rw [get_user_map db GG a hGGid, hfa, Option.map_some']
  have hB2 : get_user_by_username (db.map GG) (stripAt name)
      = some (_map_user_from_db (GG rb)) := by
    rw [get_user_by_username_map db GG _ hGGun, hfb, Option.map_some']
  have hnomid : (_map_user_from_db (GG rb)).user_id = rb.id := by
    rw [mapUser_id, hGGid]
  have hneb2 : ¬(a == (_map_user_from_db (GG rb)).user_id) = true := by
    rw [hnomid]
    simp only [beq_iff_eq]
    intro h
    exact hne (by rw [hbid, h])
  have hdup : stripAt name ∈ (_map_user_from_db (GG ra)).nominations_given
    := by
    rw [hGra]
    show stripAt name ∈
      (some (na.nominations_given ++ [stripAt name])).getD []
    simp
  have hsecond :
      add_nomination (db.map GG) a name =
        ({ status := .error
           message := "You have already nominated @" ++ stripAt name
           nominee := none }, db.map GG) := by
    simp only [add_nomination, hA2, hB2]
    rw [if_neg hneb2, if_pos hdup]
  have hfb2 : findById db b.user_id = some rb := by
    rw [hbid]
    exact findById_eq_of_unique hu hmemb
  refine ⟨by rw [hsucc], ?_, ?_, ?_, ?_⟩
  · rw [hdb1, hsecond]
  · rw [hdb1, hsecond]
  · rw [hdb1, hsecond]
  · refine ⟨_map_user_from_db (GG rb), ?_, ?_⟩
    · rw [hdb1, hsecond]
      show get_user (db.map GG) b.user_id = some (_map_user_from_db (GG rb))
      rw [get_user_map db GG _ hGGid, hfb2, Option.map_some']
    · rw [hGrb]
      rfl

/-- Witness for the amended C3 on a store with two fresh users. -/
theorem add_nomination_twice_amended_witness :
    (add_nomination twoUserDb 1 "bee").1.status = NomStatus.success ∧
    (add_nomination (add_nomination twoUserDb 1 "bee").2 1 "bee").1.status
      = NomStatus.error ∧
    (add_nomination (add_nomination twoUserDb 1 "bee").2 1 "bee").1.message
      = "You have already nominated @" ++ stripAt "bee" ∧
    (add_nomination (add_nomination twoUserDb 1 "bee").2 1 "bee").2
      = (add_nomination twoUserDb 1 "bee").2 ∧
    ∃ b2 : User,
      get_user (add_nomination (add_nomination twoUserDb 1 "bee").2 1 "bee").2
          (_map_user_from_db rowBee).user_id = some b2 ∧
      b2.nominations_received
        = (_map_user_from_db rowBee).nominations_received + 1 :=
  add_nomination_twice_amended twoUserDb 1 "bee"
    (_map_user_from_db rowAl) (_map_user_from_db rowBee)
    (by simp [twoUserDb, UniqueIds, rowAl, rowBee, newUserRow])
    rfl rfl (by decide) (by decide)

theorem uniqueIds_map (db : DB) (g : DBRow → DBRow)
    (hid : ∀ r, (g r).id = r.id) (hu : UniqueIds db) :
    UniqueIds (db.map g) := by
  unfold UniqueIds at hu ⊢
  rw [List.pairwise_map]
  exact hu.imp (fun {x y} h => by rw [hid, hid]; exact h)

theorem givenOf_map_eq (g : DBRow → DBRow)
    (hgiven : ∀ r, (g r).nominations_given = r.nominations_given)
    (r : DBRow) : givenOf (g r) = givenOf r := by
  unfold givenOf
  rw [hgiven]

theorem nominationsFor_fields_map (db : DB) (g : DBRow → DBRow) (i : Int)
    (hid : ∀ r, (g r).id = r.id)
    (hun : ∀ r, (g r).username = r.username)
    (hgiven : ∀ r, (g r).nominations_given = r.nominations_given) :
    nominationsFor (db.map g) i = nominationsFor db i := by
  unfold nominationsFor
  have hres : (fun n => resolveId (db.map g) n == some i)
      = (fun n => resolveId db n == some i) :=
    funext (fun n => by rw [resolveId_map db g n hid hun])
  rw [hres, List.map_map]
  congr 1
  exact List.map_congr_left (fun v _ => by
    show (givenOf (g v)).countP (fun n => resolveId db n == some i)
      = (givenOf v).countP (fun n => resolveId db n == some i)
    rw [givenOf_map_eq g hgiven])

theorem inv_map_preserve (db : DB) (g : DBRow → DBRow)
    (hid : ∀ r, (g r).id = r.id)
    (hun : ∀ r, (g r).username = r.username)
    (hgiven : ∀ r, (g r).nominations_given = r.nominations_given)
    (hrecv : ∀ r, (g r).nominations_received = r.nominations_received)
    (h : LedgerInv db) : LedgerInv (db.map g) := by
  obtain ⟨h1, h2, h3⟩ := h
  refine ⟨uniqueIds_map db g hid h1, ?_, ?_⟩
  · intro v hv n hn
    rcases List.mem_map.mp hv with ⟨w, hw, rfl⟩
    rw [resolveId_map db g n hid hun]
    exact h2 w hw n (by rwa [givenOf_map_eq g hgiven] at hn)
  · intro u hu
    rcases List.mem_map.mp hu with ⟨w, hw, rfl⟩
    have hr : receivedOf (g w) = receivedOf w := by
      unfold receivedOf
      rw [hrecv]
    rw [hr, nominationsFor_fields_map db g _ hid hun hgiven, hid]
    exact h3 w hw

theorem resolveId_append (db l : DB) (n : String)
    (h : (resolveId db n).isSome = true) :
    resolveId (db ++ l) n = resolveId db n := by
  unfold resolveId findByUsername at h ⊢
  rw [List.find?_append]
  rcases Option.isSome_iff_exists.mp h with ⟨j, hj⟩
  rcases Option.map_eq_some'.mp hj with ⟨r, hr, hjr⟩
  rw [hr]
  rfl

theorem resolveId_eq_some {db : DB} {n : String} {j : Int}
    (h : resolveId db n = some j) : ∃ r ∈ db, r.id = j := by
  unfold resolveId at h
  rcases Option.map_eq_some'.mp h with ⟨r, hr, hjr⟩
  have hr' : List.find? (fun s => s.username == some (stripAt n)) db = some r
    := hr
  exact ⟨r, List.mem_of_find?_eq_some hr', hjr⟩

theorem sum_map_zero {α : Type} (l : List α) (c : α → Nat)
    (h : ∀ v ∈ l, c v = 0) : (l.map c).sum = 0 := by
  induction l with
  | nil => rfl
  | cons x xs ih =>
      rw [List.map_cons, List.sum_cons, h x (List.mem_cons_self x xs),
        ih (fun v hv => h v (List.mem_cons_of_mem x hv))]

theorem inv_insert (db : DB) (user_id : Int) (username : Option String)
    (first_name now : String) (h : LedgerInv db)
    (hfresh : findById db user_id = none) :
    LedgerInv (db ++ [newUserRow user_id username first_name now]) := by
  obtain ⟨h1, h2, h3⟩ := h
  have hfresh0 : List.find? (fun r => r.id == user_id) db = none := hfresh
  have hfresh' : ∀ r ∈ db, ¬(r.id == user_id) = true :=
    List.find?_eq_none.mp hfresh0
  have hstable : ∀ i : Int,
      nominationsFor (db ++ [newUserRow user_id username first_name now]) i
        = nominationsFor db i := by
    intro i
    unfold nominationsFor
    rw [List.map_append, List.sum_append]
    have hw0 : (([newUserRow user_id username first_name now]).map
        (fun v => (givenOf v).countP (fun n =>
          resolveId (db ++ [newUserRow user_id username first_name now]) n
            == some i))).sum = 0 := by
      simp [givenOf, newUserRow]
    rw [hw0, Nat.add_zero]
    congr 1
    apply List.map_congr_left
    intro v hv
    apply List.countP_congr
    intro n hn
    rw [resolveId_append db _ n (h2 v hv n hn)]
  refine ⟨?_, ?_, ?_⟩
  · unfold UniqueIds
    rw [List.pairwise_append]
    refine ⟨h1, List.pairwise_singleton _ _, ?_⟩
    intro r hr w' hw'
    have hw'' : w' = newUserRow user_id username first_name now := by
      simpa using hw'
    rw [hw'']
    show r.id ≠ user_id
    intro hcontra
    exact hfresh' r hr (by simp [hcontra])
  · intro v hv n hn
    rcases List.mem_append.mp hv with hvdb | hvw
    · rw [resolveId_append db _ n (h2 v hvdb n hn)]
      exact h2 v hvdb n hn
    · have hvw' : v = newUserRow user_id username first_name now := by
        simpa using hvw
      rw [hvw'] at hn
      simp [givenOf, newUserRow] at hn
  · intro u hu
    rcases List.mem_append.mp hu with hudb | huw
    · rw [hstable]
      exact h3 u hudb
    · have huw' : u = newUserRow user_id username first_name now := by
        simpa using huw
      rw [huw', hstable]
      show 0 = nominationsFor db user_id
      symm
      apply sum_map_zero
      intro v hv
      apply List.countP_eq_zero.mpr
      intro n hn hres
      have hres' : resolveId db n = some user_id := by
        cases hx : resolveId db n with
        | none => rw [hx] at hres; cases hres
        | some j =>
            rw [hx] at hres
            have hj : j = user_id := by simpa using hres
            rw [hj]
      rcases resolveId_eq_some hres' with ⟨r, hrdb, hrid⟩
      exact hfresh' r hrdb (by simp [hrid])

theorem beq_some_some_int (x y : Int) : (some x == some y) = (x == y) := by
  cases h : x == y
  · simp only [beq_eq_false_iff_ne] at h
    simp [h]
  · simp only [beq_iff_eq] at h
    simp [h]

theorem inv_nomination (db : DB) (a : Int) (name : String) {na b : User}
    (h : LedgerInv db)
    (hA : get_user db a = some na)
    (hB : get_user_by_username db (stripAt name) = some b)
    (hneb : (a == b.user_id) = false) :
    LedgerInv (db.map (fun r =>
      if r.id == a then
        { r with
          nominations_given := some (na.nominations_given ++ [stripAt name]) }
      else if r.id == b.user_id then
        { r with nominations_received := some (b.nominations_received + 1) }
      else r)) := by
  obtain ⟨h1, h2, h3⟩ := h
  rcases get_user_eq_some hA with ⟨ra, hfa, hma, hmema, hida⟩
  rcases get_user_by_username_eq_some hB with ⟨rb, hfb, hmb, hmemb, husb⟩
  have hbid : b.user_id = rb.id := by rw [← hmb]; rfl
  have hne' : a ≠ b.user_id := by simpa using hneb
  set GG : DBRow → DBRow := (fun r =>
    if r.id == a then
      { r with
        nominations_given := some (na.nominations_given ++ [stripAt name]) }
    else if r.id == b.user_id then
      { r with nominations_received := some (b.nominations_received + 1) }
    else r) with hGG
  have hGGid : ∀ r, (GG r).id = r.id := by
    intro r
    rw [hGG]
    by_cases hc1 : (r.id == a) = true
    · simp [hc1]
    · by_cases hc2 : (r.id == b.user_id) = true <;> simp [hc1, hc2]
  have hGGun : ∀ r, (GG r).username = r.username := by
    intro r
    rw [hGG]
    by_cases hc1 : (r.id == a) = true
    · simp [hc1]
    · by_cases hc2 : (r.id == b.user_id) = true <;> simp [hc1, hc2]
  have hnagiven : na.nominations_given = givenOf ra := by rw [← hma]; rfl
  have hbrecv : b.nominations_received = receivedOf rb := by rw [← hmb]; rfl
  have hres1 : resolveId db (stripAt name) = some rb.id := by
    unfold resolveId
    rw [hfb]
    rfl
  have hgiven_GG : ∀ v ∈ db, givenOf (GG v) =
      if (v.id == a) = true then givenOf v ++ [stripAt name]
      else givenOf v := by
    intro v hv
    by_cases hva : (v.id == a) = true
    · have hvid : v.id = ra.id := by
        rw [hida]
        exact beq_iff_eq.mp hva
      have hveq : v = ra := unique_row h1 hv hmema hvid
      rw [if_pos hva]
      simp only [hGG]
      rw [if_pos hva]
      show na.nominations_given ++ [stripAt name]
        = givenOf v ++ [stripAt name]
      rw [hveq, ← hnagiven]
    · rw [if_neg hva]
      simp only [hGG]
      rw [if_neg hva]
      by_cases hvb : (v.id == b.user_id) = true
      · rw [if_pos hvb]
        rfl
      · rw [if_neg hvb]
  have hrecv_GG : ∀ v ∈ db, receivedOf (GG v) =
      if (v.id == b.user_id) = true then receivedOf v + 1
      else receivedOf v := by
    intro v hv
    by_cases hva : (v.id == a) = true
    · have hvb : ¬(v.id == b.user_id) = true := by
        simp only [beq_iff_eq]
        intro hvb
        exact hne' (by rw [← beq_iff_eq.mp hva, hvb])
      rw [if_neg hvb]
      simp only [hGG]
      rw [if_pos hva]
      rfl
    · simp only [hGG]
      rw [if_neg hva]
      by_cases hvb : (v.id == b.user_id) = true
      · rw [if_pos hvb, if_pos hvb]
        have hveq : v = rb := unique_row h1 hv hmemb
          (by rw [hbid] at hvb; exact beq_iff_eq.mp hvb)
        show b.nominations_received + 1 = receivedOf v + 1
        rw [hveq, hbrecv]
      · rw [if_neg hvb, if_neg hvb]
  have hnomFor : ∀ i : Int, nominationsFor (db.map GG) i =
      nominationsFor db i + (if (rb.id == i) = true then 1 else 0) := by
    intro i
    unfold nominationsFor
    have hres : (fun n => resolveId (db.map GG) n == some i)
        = (fun n => resolveId db n == some i) :=
      funext (fun n => by rw [resolveId_map db GG n hGGid hGGun])
    rw [hres, List.map_map]
    have hsplit : db.map
        ((fun v => (givenOf v).countP (fun n => resolveId db n == some i))
          ∘ GG)
        = db.map (fun v =>
            (givenOf v).countP (fun n => resolveId db n == some i)
            + (if (v.id == a) = true then
                (if (resolveId db (stripAt name) == some i) = true then 1
                 else 0)
               else 0)) := by
      apply List.map_congr_left
      intro v hv
      show (givenOf (GG v)).countP (fun n => resolveId db n == some i) = _
      rw [hgiven_GG v hv]
      by_cases hva : (v.id == a) = true
      · rw [if_pos hva, if_pos hva, List.countP_append]
        congr 1
        rw [List.countP_cons, List.countP_nil, Nat.zero_add]
      · rw [if_neg hva, if_neg hva, Nat.add_zero]
    rw [hsplit,
      sum_map_add db
        (fun v => (givenOf v).countP (fun n => resolveId db n == some i))
        (fun v => if (v.id == a) = true then
          (if (resolveId db (stripAt name) == some i) = true then 1 else 0)
          else 0),
      sum_map_ite db (fun v => v.id == a)
        (if (resolveId db (stripAt name) == some i) = true then 1 else 0),
      countP_id_eq_one h1 hmema hida, Nat.mul_one, hres1,
      beq_some_some_int]
  refine ⟨uniqueIds_map db GG hGGid h1, ?_, ?_⟩
  · intro v' hv' n hn
    rcases List.mem_map.mp hv' with ⟨v, hv, rfl⟩
    rw [resolveId_map db GG n hGGid hGGun]
    rw [hgiven_GG v hv] at hn
    by_cases hva : (v.id == a) = true
    · rw [if_pos hva] at hn
      rcases List.mem_append.mp hn with hold | hnew1
      · exact h2 v hv n hold
      · have hn1 : n = stripAt name := by simpa using hnew1
        rw [hn1, hres1]
        rfl
    · rw [if_neg hva] at hn
      exact h2 v hv n hn
  · intro u' hu'
    rcases List.mem_map.mp hu' with ⟨v, hv, rfl⟩
    rw [hGGid v, hnomFor v.id, hrecv_GG v hv]
    by_cases hvb : (v.id == b.user_id) = true
    · have hsym : (rb.id == v.id) = true := by
        rw [hbid] at hvb
        simp only [beq_iff_eq] at hvb ⊢
        exact hvb.symm
      rw [if_pos hvb, if_pos hsym, h3 v hv]
    · have hsym : ¬(rb.id == v.id) = true := by
        rw [hbid] at hvb
        simp only [beq_iff_eq] at hvb ⊢
        exact fun hc => hvb hc.symm
      rw [if_neg hvb, if_neg hsym, Nat.add_zero, h3 v hv]

theorem inv_updateById (db : DB) (uid : Int) (f : DBRow → DBRow)
    (hid : ∀ r, (f r).id = r.id)
    (hun : ∀ r, (f r).username = r.username)
    (hgiven : ∀ r, (f r).nominations_given = r.nominations_given)
    (hrecv : ∀ r, (f r).nominations_received = r.nominations_received)
    (h : LedgerInv db) : LedgerInv (updateById db uid f) := by
  unfold updateById
  refine inv_map_preserve db _ ?_ ?_ ?_ ?_ h
  · intro r
    by_cases hc : (r.id == uid) = true
    · rw [if_pos hc]; exact hid r
    · rw [if_neg hc]
  · intro r
    by_cases hc : (r.id == uid) = true
    · rw [if_pos hc]; exact hun r
    · rw [if_neg hc]
  · intro r
    by_cases hc : (r.id == uid) = true
    · rw [if_pos hc]; exact hgiven r
    · rw [if_neg hc]
  · intro r
    by_cases hc : (r.id == uid) = true
    · rw [if_pos hc]; exact hrecv r
    · rw [if_neg hc]

theorem inv_updateByGithubUsername (db : DB) (g : String) (f : DBRow → DBRow)
    (hid : ∀ r, (f r).id = r.id)
    (hun : ∀ r, (f r).username = r.username)
    (hgiven : ∀ r, (f r).nominations_given = r.nominations_given)
    (hrecv : ∀ r, (f r).nominations_received = r.nominations_received)
    (h : LedgerInv db) : LedgerInv (updateByGithubUsername db g f) := by
  unfold updateByGithubUsername
  refine inv_map_preserve db _ ?_ ?_ ?_ ?_ h
  · intro r
    by_cases hc : (r.github_username == some g) = true
    · rw [if_pos hc]; exact hid r
    · rw [if_neg hc]
  · intro r
    by_cases hc : (r.github_username == some g) = true
    · rw [if_pos hc]; exact hun r
    · rw [if_neg hc]
  · intro r
    by_cases hc : (r.github_username == some g) = true
    · rw [if_pos hc]; exact hgiven r
    · rw [if_neg hc]
  · intro r
    by_cases hc : (r.github_username == some g) = true
    · rw [if_pos hc]; exact hrecv r
    · rw [if_neg hc]

theorem inv_step {db db' : DB} (h : LedgerInv db) (hs : Step db db') :
    LedgerInv db' := by
  cases hs with
  | create uid un fn now =>
      unfold get_or_create_user
      cases hf : findById db uid with
      | some r => simp only [hf]; exact h
      | none => simp only [hf]; exact inv_insert db uid un fn now h hf
  | github uid g =>
      exact inv_updateById db uid _ (fun r => rfl) (fun r => rfl)
        (fun r => rfl) (fun r => rfl) h
  | wallet uid w =>
      exact inv_updateById db uid _ (fun r => rfl) (fun r => rfl)
        (fun r => rfl) (fun r => rfl) h
  | score uid s =>
      exact inv_updateById db uid _ (fun r => rfl) (fun r => rfl)
        (fun r => rfl) (fun r => rfl) h
  | telegram uid kind =>
      unfold update_telegram_activity
      by_cases hk : kind ∉ ["messages", "replies"]
      · rw [if_pos hk]; exact h
      · rw [if_neg hk]
        cases hg : get_user db uid with
        | none => simp only [hg]; exact h
        | some u =>
            simp only [hg]
            exact inv_updateById db uid _
              (fun r => by
                by_cases hm : (kind == "messages") = true
                · rw [if_pos hm]
                · rw [if_neg hm])
              (fun r => by
                by_cases hm : (kind == "messages") = true
                · rw [if_pos hm]
                · rw [if_neg hm])
              (fun r => by
                by_cases hm : (kind == "messages") = true
                · rw [if_pos hm]
                · rw [if_neg hm])
              (fun r => by
                by_cases hm : (kind == "messages") = true
                · rw [if_pos hm]
                · rw [if_neg hm]) h
  | contribution g kind =>
      unfold update_github_contribution
      by_cases hk : kind ∉ ["commits", "prs", "issues"]
      · rw [if_pos hk]; exact h
      · rw [if_neg hk]
        cases hg : get_user_by_github_username db g with
        | none => simp only [hg]; exact h
        | some u =>
            simp only [hg]
            exact inv_updateByGithubUsername db g _
              (fun r => by
                by_cases h1 : (kind == "commits") = true
                · rw [if_pos h1]
                · rw [if_neg h1]
                  by_cases h2 : (kind == "prs") = true
                  · rw [if_pos h2]
                  · rw [if_neg h2])
              (fun r => by
                by_cases h1 : (kind == "commits") = true
                · rw [if_pos h1]
                · rw [if_neg h1]
                  by_cases h2 : (kind == "prs") = true
                  · rw [if_pos h2]
                  · rw [if_neg h2])
              (fun r => by
                by_cases h1 : (kind == "commits") = true
                · rw [if_pos h1]
                · rw [if_neg h1]
                  by_cases h2 : (kind == "prs") = true
                  · rw [if_pos h2]
                  · rw [if_neg h2])
              (fun r => by
                by_cases h1 : (kind == "commits") = true
                · rw [if_pos h1]
                · rw [if_neg h1]
                  by_cases h2 : (kind == "prs") = true
                  · rw [if_pos h2]
                  · rw [if_neg h2]) h
  | nominate a nm =>
      cases hga : get_user db a with
      | none => simp only [add_nomination, hga]; exact h
      | some nominator =>
          cases hgb : get_user_by_username db (stripAt nm) with
          | none => simp only [add_nomination, hga, hgb]; exact h
          | some nominee =>
              by_cases hself : (a == nominee.user_id) = true
              · simp only [add_nomination, hga, hgb]
                rw [if_pos hself]
                exact h
              · by_cases hdup : stripAt nm ∈ nominator.nominations_given
                · simp only [add_nomination, hga, hgb]
                  rw [if_neg hself, if_pos hdup]
                  exact h
                · have hneb : (a == nominee.user_id) = false := by
                    simpa using hself
                  have hsucc :=
                    add_nomination_success_eq db a nm hga hgb hneb hdup
                  rw [hsucc, nomination_store_eq db a nominee.user_id _ _ hneb]
                  exact inv_nomination db a nm h hga hgb hneb

theorem reachable_ledgerInv {db : DB} (h : Reachable db) : LedgerInv db := by
  induction h with
  | init =>
      refine ⟨List.Pairwise.nil, ?_, ?_⟩
      · intro v hv
        cases hv
      · intro u hu
        cases hu
  | step _ hs ih => exact inv_step ih hs

/-- **C1.** Counter-pair invariant: in every reachable state of the users
store (fault-free sequential storage semantics), each user's
`nominations_received` counter equals the total number of given-list entries
across the store that resolve to that user — in particular, whenever a
username appears in some nominator's `nominations_given`, the matching
increment has been applied to the resolved nominee's `nominations_received`,
even though `add_nomination` performs the two writes separately. -/
theorem counter_pair_invariant {db : DB} (h : Reachable db) :
    CounterPairConsistent db :=
  (reachable_ledgerInv h).2.2

/-- Witness for C1: a concrete reachable store — create two users, then let
the first nominate the second — satisfies the counter-pair property. -/
theorem counter_pair_invariant_witness :
    CounterPairConsistent
      (add_nomination
        (get_or_create_user
          (get_or_create_user [] 1 (some "al") "Al" "t1").2
          2 (some "bee") "Bee" "t2").2
        1 "bee").2 :=
  counter_pair_invariant
    (Reachable.step
      (Reachable.step
        (Reachable.step Reachable.init
          (Step.create [] 1 (some "al") "Al" "t1"))
        (Step.create _ 2 (some "bee") "Bee" "t2"))
      (Step.nominate _ 1 "bee"))

theorem replacePlus_eq_spec (s : String) (h : ValidCountryCode s) :
    replacePlus s = spec_stripLeadingPlus s := by
  obtain ⟨l⟩ := s
  unfold ValidCountryCode at h
  show String.mk (l.filter (fun c => c ≠ '+'))
    = if l.head? = some '+' then String.mk l.tail else String.mk l
  cases l with
  | nil => rfl
  | cons c rest =>
      have h' : '+' ∉ rest := by simpa using h
      have hfil : rest.filter (fun c => c ≠ '+') = rest :=
        List.filter_eq_self.mpr (fun x hx => by
          rw [decide_eq_true_eq]
          intro heq
          exact h' (heq ▸ hx))
      by_cases hc : c = '+'
      · subst hc
        rw [if_pos (show ('+' :: rest).head? = some '+' from rfl)]
        show String.mk (List.filter (fun c => decide (c ≠ '+')) ('+' :: rest))
          = String.mk rest
        rw [List.filter_cons, if_neg (by simp), hfil]
      · rw [if_neg (by simp [hc])]
        show String.mk (List.filter (fun c => decide (c ≠ '+')) (c :: rest))
          = String.mk (c :: rest)
        rw [List.filter_cons, if_pos (by simp [decide_eq_true_eq, hc]), hfil]

/-- **C5.** Country-code normalization: on every valid input (no `+` past
the first character), `send_otp` and `verify_otp` forward to the external
provider exactly the country code with its leading `+` stripped, and the
phone number (and OTP) unchanged — exhibited with a recording provider whose
result reveals the arguments it was invoked with. -/
theorem otp_country_code_normalized (key cc phone otp : String)
    (h : ValidCountryCode cc) :
    send_otp true (some key)
        ({ initExc := none
           sendOtp := fun c p => Except.ok (c, p)
           loginWithPhone := fun c p o => Except.ok (c, p, o)
           closeExc := none } :
          SdkBehavior (String × String) (String × String × String))
        cc phone
      = Except.ok (Envelope.result (spec_stripLeadingPlus cc, phone)) ∧
    verify_otp true (some key)
        ({ initExc := none
           sendOtp := fun c p => Except.ok (c, p)
           loginWithPhone := fun c p o => Except.ok (c, p, o)
           closeExc := none } :
          SdkBehavior (String × String) (String × String × String))
        cc phone otp
      = Except.ok (Envelope.result (spec_stripLeadingPlus cc, phone, otp))
    := by
  constructor
  · show Except.ok (Envelope.result (replacePlus cc, phone))
      = Except.ok (Envelope.result (spec_stripLeadingPlus cc, phone))
    rw [replacePlus_eq_spec cc h]
  · show Except.ok (Envelope.result (replacePlus cc, phone, otp))
      = Except.ok (Envelope.result (spec_stripLeadingPlus cc, phone, otp))
    rw [replacePlus_eq_spec cc h]

/-- Witness for C5: `+1` is forwarded as `1`, the phone number verbatim. -/
theorem otp_country_code_normalized_witness :
    send_otp true (some "k")
        ({ initExc := none
           sendOtp := fun c p => Except.ok (c, p)
           loginWithPhone := fun c p o => Except.ok (c, p, o)
           closeExc := none } :
          SdkBehavior (String × String) (String × String × String))
        "+1" "5551234"
      = Except.ok (Envelope.result (spec_stripLeadingPlus "+1", "5551234")) ∧
    spec_stripLeadingPlus "+1" = "1" :=
  ⟨(otp_country_code_normalized "k" "+1" "5551234" "0000" (by decide)).1,
    rfl⟩

/-- `true` iff the computation finished normally (no Python exception). -/
def exceptOk {α : Type} : Except String α → Bool
  | .ok _ => true
  | .error _ => false

/-- A `database.py` operation never lets an exception escape: whatever the
store contents and whatever faults the storage client raises, the result is
a normal return value. -/
def NeverRaises {α : Type} (m : FM α) : Prop :=
  ∀ s, exceptOk (m s).1 = true

theorem neverRaises_pure {α : Type} (a : α) :
    NeverRaises (pureFM a) :=
  fun _ => rfl

theorem neverRaises_tryCatchF {α : Type} (m : FM α) (h : String → FM α)
    (hh : ∀ e, NeverRaises (h e)) : NeverRaises (tryCatchF m h) := by
  intro s
  unfold tryCatchF
  cases hm : m s with
  | mk fst s' =>
      cases fst with
      | error e => exact hh e s'
      | ok a => rfl

theorem neverRaises_bind {α β : Type} (m : FM α) (k : α → FM β)
    (hm : NeverRaises m) (hk : ∀ a, NeverRaises (k a)) :
    NeverRaises (bindFM m k) := by
  intro s
  have hms' := hm s
  unfold bindFM
  cases hms : m s with
  | mk fst s' =>
      cases fst with
      | ok a => exact hk a s'
      | error e =>
          rw [hms] at hms'
          simp [exceptOk] at hms'

theorem neverRaises_get_userF (user_id : Int) :
    NeverRaises (get_userF user_id) :=
  neverRaises_tryCatchF _ _ (fun _ => neverRaises_pure none)

theorem neverRaises_get_user_by_usernameF (username : String) :
    NeverRaises (get_user_by_usernameF username) :=
  neverRaises_tryCatchF _ _ (fun _ => neverRaises_pure none)

theorem neverRaises_get_user_by_github_usernameF (g : String) :
    NeverRaises (get_user_by_github_usernameF g) :=
  neverRaises_tryCatchF _ _ (fun _ => neverRaises_pure none)

theorem neverRaises_get_all_usersF : NeverRaises get_all_usersF :=
  neverRaises_tryCatchF _ _ (fun _ => neverRaises_pure [])

theorem neverRaises_get_or_create_userF (user_id : Int)
    (username : Option String) (first_name now : String) :
    NeverRaises (get_or_create_userF user_id username first_name now) :=
  neverRaises_tryCatchF _ _ (fun _ => neverRaises_pure none)

theorem neverRaises_update_user_githubF (user_id : Int) (g : String) :
    NeverRaises (update_user_githubF user_id g) :=
  neverRaises_tryCatchF _ _ (fun _ => neverRaises_pure false)

theorem neverRaises_update_user_walletF (user_id : Int) (w : String) :
    NeverRaises (update_user_walletF user_id w) :=
  neverRaises_tryCatchF _ _ (fun _ => neverRaises_pure false)

theorem neverRaises_update_user_builder_scoreF (user_id : Int) (sc : Int) :
    NeverRaises (update_user_builder_scoreF user_id sc) :=
  neverRaises_tryCatchF _ _ (fun _ => neverRaises_pure false)

theorem neverRaises_update_telegram_activityF (user_id : Int)
    (activity_type : String) :
    NeverRaises (update_telegram_activityF user_id activity_type) := by
  unfold update_telegram_activityF
  by_cases hk : activity_type ∉ ["messages", "replies"]
  · rw [if_pos hk]
    exact neverRaises_pure false
  · rw [if_neg hk]
    exact neverRaises_tryCatchF _ _ (fun _ => neverRaises_pure false)

theorem neverRaises_update_github_contributionF (g kind : String) :
    NeverRaises (update_github_contributionF g kind) := by
  unfold update_github_contributionF
  by_cases hk : kind ∉ ["commits", "prs", "issues"]
  · rw [if_pos hk]
    exact neverRaises_pure false
  · rw [if_neg hk]
    apply neverRaises_bind _ _ (neverRaises_get_user_by_github_usernameF g)
    intro user
    cases user with
    | none => exact neverRaises_pure false
    | some u =>
        exact neverRaises_tryCatchF _ _ (fun _ => neverRaises_pure false)

theorem neverRaises_add_nominationF (nominator_id : Int)
    (nominee_username : String) :
    NeverRaises (add_nominationF nominator_id nominee_username) := by
  unfold add_nominationF
  apply neverRaises_bind _ _ (neverRaises_get_userF nominator_id)
  intro nominator
  cases nominator with
  | none => exact neverRaises_pure _
  | some nominator =>
      apply neverRaises_bind _ _
        (neverRaises_get_user_by_usernameF (stripAt nominee_username))
      intro nominee
      cases nominee with
      | none => exact neverRaises_pure _
      | some nominee =>
          dsimp only
          by_cases hself : (nominator_id == nominee.user_id) = true
          · rw [if_pos hself]
            exact neverRaises_pure _
          · rw [if_neg hself]
            by_cases hdup :
                stripAt nominee_username ∈ nominator.nominations_given
            · rw [if_pos hdup]
              exact neverRaises_pure _
            · rw [if_neg hdup]
              exact neverRaises_tryCatchF _ _ (fun _ => neverRaises_pure _)

theorem neverRaises_get_top_buildersF (limit : Nat) :
    NeverRaises (get_top_buildersF limit) :=
  neverRaises_tryCatchF _ _ (fun _ => neverRaises_pure [])

theorem neverRaises_save_projectF (payload now : String) :
    NeverRaises (save_projectF payload now) :=
  neverRaises_tryCatchF _ _ (fun _ => neverRaises_pure false)

theorem neverRaises_get_projectsF (limit : Nat) :
    NeverRaises (get_projectsF limit) :=
  neverRaises_tryCatchF _ _ (fun _ => neverRaises_pure [])

/-- Counterexample to **C8** as stated: `ZoAuthService.close` is an
operation of the Identity Gateway, but its body (`await cls._sdk.close()`)
has no `try`/`except` — when the provider's `close()` raises, the exception
propagates past the kernel's boundary instead of being normalized. -/
theorem exception_policy_cex :
    auth_close true
        ({ initExc := none
           sendOtp := fun c p => Except.ok (c, p)
           loginWithPhone := fun c p o => Except.ok (c, p, o)
           closeExc := some "connection reset" } :
          SdkBehavior (String × String) (String × String × String))
      = Except.error "connection reset" := rfl

/-- **C8 (amended).** Exception propagation policy for everything except
`close`: for `send_otp` and `verify_otp` of the Identity Gateway (any SDK
behaviour, any cache state, including missing credentials) the result is
always a normally returned envelope, and every User Ledger operation never
lets a storage-client exception escape — all failures are normalized into
`False`/`None`/`[]`/`{}` or a structured error result. -/
theorem exception_policy_amended :
    (∀ (α β : Type) (cached : Bool) (key : Option String)
        (sdk : SdkBehavior α β) (cc ph : String),
      ∃ env, send_otp cached key sdk cc ph = Except.ok env) ∧
    (∀ (α β : Type) (cached : Bool) (key : Option String)
        (sdk : SdkBehavior α β) (cc ph otp : String),
      ∃ env, verify_otp cached key sdk cc ph otp = Except.ok env) ∧
    (∀ (user_id : Int) (username : Option String) (first_name now : String),
      NeverRaises (get_or_create_userF user_id username first_name now)) ∧
    (∀ user_id : Int, NeverRaises (get_userF user_id)) ∧
    (∀ username : String, NeverRaises (get_user_by_usernameF username)) ∧
    NeverRaises get_all_usersF ∧
    (∀ (user_id : Int) (g : String),
      NeverRaises (update_user_githubF user_id g)) ∧
    (∀ (user_id : Int) (w : String),
      NeverRaises (update_user_walletF user_id w)) ∧
    (∀ (user_id : Int) (kind : String),
      NeverRaises (update_telegram_activityF user_id kind)) ∧
    (∀ (user_id : Int) (sc : Int),
      NeverRaises (update_user_builder_scoreF user_id sc)) ∧
    (∀ (a : Int) (nm : String), NeverRaises (add_nominationF a nm)) ∧
    (∀ g : String, NeverRaises (get_user_by_github_usernameF g)) ∧
    (∀ g kind : String, NeverRaises (update_github_contributionF g kind)) ∧
    (∀ limit : Nat, NeverRaises (get_top_buildersF limit)) ∧
    (∀ payload now : String, NeverRaises (save_projectF payload now)) ∧
    (∀ limit : Nat, NeverRaises (get_projectsF limit)) := by
  refine ⟨?_, ?_, ?_, ?_, ?_, ?_, ?_, ?_, ?_, ?_, ?_, ?_, ?_, ?_, ?_, ?_⟩
  · intro α β cached key sdk cc ph
    unfold send_otp
    cases hb : (do
        let _ ← get_sdk cached key sdk
        let cc := replacePlus cc
        sdk.sendOtp cc ph : Except String α) with
    | ok r => exact ⟨Envelope.result r, rfl⟩
    | error e => exact ⟨Envelope.failure e, rfl⟩
  · intro α β cached key sdk cc ph otp
    unfold verify_otp
    cases hb : (do
        let _ ← get_sdk cached key sdk
        let cc := replacePlus cc
        sdk.loginWithPhone cc ph otp : Except String β) with
    | ok r => exact ⟨Envelope.result r, rfl⟩
    | error e => exact ⟨Envelope.failure e, rfl⟩
  · exact neverRaises_get_or_create_userF
  · exact neverRaises_get_userF
  · exact neverRaises_get_user_by_usernameF
  · exact neverRaises_get_all_usersF
  · exact neverRaises_update_user_githubF
  · exact neverRaises_update_user_walletF
  · exact neverRaises_update_telegram_activityF
  · exact neverRaises_update_user_builder_scoreF
  · exact neverRaises_add_nominationF
  · exact neverRaises_get_user_by_github_usernameF
  · exact neverRaises_update_github_contributionF
  · exact neverRaises_get_top_buildersF
  · exact neverRaises_save_projectF
  · exact neverRaises_get_projectsF

/-!
## Agreement of the exception-aware layer with the fault-free semantics

With an empty fault schedule (the storage client never raises), each
exception-aware operation computes exactly the fault-free operation's result
and store.
-/

theorem get_userF_no_faults (db : DB) (ps : List ProjectRow) (uid : Int) :
    get_userF uid ⟨db, ps, []⟩ = (.ok (get_user db uid), ⟨db, ps, []⟩) := rfl

theorem get_or_create_userF_no_faults (db : DB) (ps : List ProjectRow)
    (uid : Int) (un : Option String) (fn now : String) :
    get_or_create_userF uid un fn now ⟨db, ps, []⟩ =
      (.ok (some (get_or_create_user db uid un fn now).1),
       ⟨(get_or_create_user db uid un fn now).2, ps, []⟩) := by
  cases hf : findById db uid with
  | some r =>
      simp only [get_or_create_userF, get_or_create_user, instMonadFM,
        tryCatchF, bindFM, queryF, execF, pureFM, hf]
  | none =>
      simp only [get_or_create_userF, get_or_create_user, instMonadFM,
        tryCatchF, bindFM, queryF, execF, pureFM, hf]

theorem add_nominationF_no_faults (db : DB) (ps : List ProjectRow)
    (a : Int) (nm : String) :
    add_nominationF a nm ⟨db, ps, []⟩ =
      (.ok (add_nomination db a nm).1,
       ⟨(add_nomination db a nm).2, ps, []⟩) := by
  cases hga : get_user db a with
  | none =>
      simp only [get_user] at hga
      simp only [add_nominationF, add_nomination, instMonadFM, bindFM,
        get_userF, get_user, tryCatchF, queryF, execF, pureFM, hga]
  | some nominator =>
      cases hgb : get_user_by_username db (stripAt nm) with
      | none =>
          simp only [get_user, get_user_by_username] at hga hgb
          simp only [add_nominationF, add_nomination, instMonadFM, bindFM,
            get_userF, get_user_by_usernameF, get_user, get_user_by_username,
            tryCatchF, queryF, execF, pureFM, hga, hgb]
      | some nominee =>
          simp only [get_user, get_user_by_username] at hga hgb
          by_cases hself : (a == nominee.user_id) = true
          · simp only [add_nominationF, add_nomination, instMonadFM, bindFM,
              get_userF, get_user_by_usernameF, get_user, get_user_by_username,
              tryCatchF, queryF, execF, pureFM, hga, hgb, if_pos hself]
          · by_cases hdup : stripAt nm ∈ nominator.nominations_given
            · simp only [add_nominationF, add_nomination, instMonadFM, bindFM,
                get_userF, get_user_by_usernameF, get_user,
                get_user_by_username, tryCatchF, queryF, writeF, execF,
                pureFM, hga, hgb, if_neg hself, if_pos hdup]
            · simp only [add_nominationF, add_nomination, instMonadFM, bindFM,
                get_userF, get_user_by_usernameF, get_user,
                get_user_by_username, tryCatchF, queryF, writeF, execF,
                pureFM, hga, hgb, if_neg hself, if_neg hdup]

theorem get_user_by_usernameF_no_faults (db : DB) (ps : List ProjectRow)
    (n : String) :
    get_user_by_usernameF n ⟨db, ps, []⟩ =
      (.ok (get_user_by_username db n), ⟨db, ps, []⟩) := rfl

theorem get_user_by_github_usernameF_no_faults (db : DB)
    (ps : List ProjectRow) (g : String) :
    get_user_by_github_usernameF g ⟨db, ps, []⟩ =
      (.ok (get_user_by_github_username db g), ⟨db, ps, []⟩) := rfl

theorem update_user_githubF_no_faults (db : DB) (ps : List ProjectRow)
    (uid : Int) (g : String) :
    update_user_githubF uid g ⟨db, ps, []⟩ =
      (.ok (update_user_github db uid g).1,
       ⟨(update_user_github db uid g).2, ps, []⟩) := rfl

theorem update_user_walletF_no_faults (db : DB) (ps : List ProjectRow)
    (uid : Int) (w : String) :
    update_user_walletF uid w ⟨db, ps, []⟩ =
      (.ok (update_user_wallet db uid w).1,
       ⟨(update_user_wallet db uid w).2, ps, []⟩) := rfl

theorem update_user_builder_scoreF_no_faults (db : DB) (ps : List ProjectRow)
    (uid : Int) (sc : Int) :
    update_user_builder_scoreF uid sc ⟨db, ps, []⟩ =
      (.ok (update_user_builder_score db uid sc).1,
       ⟨(update_user_builder_score db uid sc).2, ps, []⟩) := rfl

theorem update_telegram_activityF_no_faults (db : DB) (ps : List ProjectRow)
    (uid : Int) (kind : String) :
    update_telegram_activityF uid kind ⟨db, ps, []⟩ =
      (.ok (update_telegram_activity db uid kind).1,
       ⟨(update_telegram_activity db uid kind).2, ps, []⟩) := by
  by_cases hk : kind ∉ ["messages", "replies"]
  · simp only [update_telegram_activityF, update_telegram_activity,
      if_pos hk]
    rfl
  · cases hg : get_user db uid with
    | none =>
        simp only [get_user] at hg
        simp only [update_telegram_activityF, update_telegram_activity,
          if_neg hk, instMonadFM, bindFM, get_userF, get_user, tryCatchF,
          queryF, writeF, execF, pureFM, hg]
    | some u =>
        simp only [get_user] at hg
        simp only [update_telegram_activityF, update_telegram_activity,
          if_neg hk, instMonadFM, bindFM, get_userF, get_user, tryCatchF,
          queryF, writeF, execF, pureFM, hg]
